import Mathlib

/-!
Verification of the sequelize-query-builder core: a shallow embedding of the
filter compiler (`FilterProcessor`), sort compiler (`SortProcessor` /
`SortBuilder`), pagination calculator (`PaginationBuilder`), cache layer
(`MemoryCacheProvider` / `CacheManager`), performance tracker
(`PerformanceMonitor`) and the orchestrator (`AdvancedQueryBuilder`), together
with theorems settling the specification's claims about them.

Modelling conventions:
* JavaScript runtime values are embedded as `JVal`; `undefined` and `null` are
  explicit constructors.  Numbers are embedded as integers (`Int`); every
  claim under verification quantifies over integer inputs only, so the
  `Number.isInteger` guards of the source are identically true in the model.
* JavaScript string falsiness (`!s`) is `s = ""`; absent optional strings are
  represented by `""` where the source only ever tests them for truthiness.
* Mutable builder / cache / monitor state is passed explicitly; `Date.now()`
  is an explicit timestamp argument at each point the source samples the
  clock.
* `throw` is `Except.error`; a `try/catch` block is a `match` on the `Except`.
-/

set_option maxHeartbeats 1000000

namespace SQB

/-- Embedded JavaScript values: `undefined`, `null`, booleans, (integer)
numbers, strings and arrays. -/
inductive JVal where
  | undef
  | null
  | bool (b : Bool)
  | num (n : Int)
  | str (s : String)
  | arr (xs : List JVal)

/-- `Array.isArray(v)`. -/
def JVal.isArr : JVal → Bool
  | .arr _ => true
  | _ => false

/-- `Array.isArray(v) && v.length === 2`. -/
def JVal.isTwoArr : JVal → Bool
  | .arr xs => xs.length == 2
  | _ => false

mutual

/-- JavaScript string coercion of a value, as used by template literals such
as `` `${value}%` `` in the source.  Array elements are joined with commas,
with `null`/`undefined` elements rendered empty, following `Array.toString`. -/
def JVal.toJs : JVal → String
  | .undef => "undefined"
  | .null => "null"
  | .bool b => if b then "true" else "false"
  | .num n => toString n
  | .str s => s
  | .arr xs => JVal.toJsArr xs

/-- Comma-joined array rendering with empty slots for `null`/`undefined`
elements, following JavaScript `Array.prototype.toString`. -/
def JVal.toJsArr : List JVal → String
  | [] => ""
  | x :: xs =>
      (match x with
       | .undef => ""
       | .null => ""
       | v => v.toJs)
      ++ (if xs.isEmpty then "" else ",") ++ JVal.toJsArr xs

end

/-- JavaScript `x || d` for an optional number `x` (both `undefined` and `0`
are falsy). -/
def jsOrInt (v : Option Int) (d : Int) : Int :=
  match v with
  | some x => if x = 0 then d else x
  | none => d

/-- JavaScript `x || d` for a string `x` (the empty string is falsy; `""` also
stands for an absent optional string). -/
def jsOrStr (v d : String) : String :=
  if v = "" then d else v

/-- The error taxonomy of the source: `ValidationError`, `PaginationError` and
`QueryError`, each carrying a message and a stable code. -/
inductive QBError where
  | validation (message code : String)
  | pagination (message code : String)
  | query (message code : String)
deriving DecidableEq, Repr

/-- Association-list model of a JavaScript `Map`: `set` overwrites in place or
appends, preserving insertion order. -/
def assocSet {α : Type} (m : List (String × α)) (k : String) (v : α) :
    List (String × α) :=
  if m.any (fun e => e.1 == k) then
    m.map (fun e => if e.1 == k then (k, v) else e)
  else
    m ++ [(k, v)]

/-- `Map.get`. -/
def assocGet {α : Type} (m : List (String × α)) (k : String) : Option α :=
  (m.find? (fun e => e.1 == k)).map (·.2)

/-- `Map.delete`. -/
def assocDel {α : Type} (m : List (String × α)) (k : String) :
    List (String × α) :=
  m.filter (fun e => e.1 != k)

/-! ## FilterProcessor (src/utils/FilterProcessor.ts)

The filter compiler.  Operators are runtime strings (the TypeScript
`FilterOperator` union is erased at runtime, and `processOperator` defends
against drift with a `default: throw`). -/

/-- A filter condition `{field, operator, value, caseSensitive?}`. -/
structure FilterCondition where
  field : String
  operator : String
  value : JVal := .undef
  caseSensitive : Option Bool := none

/-- A recursive filter tree: a leaf condition or a group
`{operator, conditions}`.  The source discriminates the two shapes by duck
typing (`'operator' in c && 'conditions' in c`); the tagged variant encodes
the outcome of that test. -/
inductive FilterTree where
  | cond (c : FilterCondition)
  | group (operator : String) (conditions : List FilterTree)

/-- The three input shapes accepted by `FilterProcessor.process`, in the order
the source discriminates them: a bare array of conditions, a filter group, or
a single condition. -/
inductive FilterInput where
  | arr (cs : List FilterCondition)
  | grp (operator : String) (conditions : List FilterTree)
  | cond (c : FilterCondition)

/-- The Sequelize operator symbols that `processOperator` emits. -/
inductive SeqOp where
  | ne | gt | gte | lt | lte
  | like | iLike | notLike | notILike
  | inOp | notInOp
  | between | notBetween
  | isOp | notOp
  | regexp | notRegexp
deriving DecidableEq, Repr

/-- Which Sequelize operators denote case-insensitive pattern matching:
`Op.iLike` and `Op.notILike` compile to SQL `ILIKE` / `NOT ILIKE`, while
`Op.like` / `Op.notLike` compile to the case-sensitive `LIKE` / `NOT LIKE`.
This encodes the record-store interface boundary. -/
def SeqOp.isCaseInsensitive : SeqOp → Bool
  | .iLike => true
  | .notILike => true
  | _ => false

/-- The logical combinators `Op.and` / `Op.or`. -/
inductive LogicOp where
  | and | or
deriving DecidableEq, Repr

/-- The backend-neutral predicate structure produced by the compiler:
`{}` (empty no-op), `{field: value}`, `{field: {[Op.x]: value}}`, or
`{[Op.and|Op.or]: [...]}`. -/
inductive WherePred where
  | empty
  | fieldEq (field : String) (v : JVal)
  | fieldOp (field : String) (op : SeqOp) (v : JVal)
  | logic (op : LogicOp) (children : List WherePred)

/-- Result object `{where, errors, warnings}` of the filter compiler. -/
structure FilterResult where
  whereClause : WherePred
  errors : List String
  warnings : List String

/-- The operators handled by the `switch` in
`FilterProcessor.processOperator`. -/
def supportedOperators : List String :=
  ["eq", "ne", "gt", "gte", "lt", "lte", "like", "notLike", "iLike",
   "notILike", "in", "notIn", "between", "notBetween", "is", "isNot",
   "startsWith", "endsWith", "contains", "regexp", "notRegexp"]

namespace FilterProcessor

/-- `FilterProcessor.processOperator`: the fixed operator-to-predicate table.
The `_caseSensitive` parameter is declared but never read by the source.  An
operator outside the table hits the `default` branch and throws. -/
def processOperator (field : String) (operator : String) (value : JVal)
    (_caseSensitive : Option Bool) : Except String WherePred :=
  match operator with
  | "eq" => .ok (.fieldEq field value)
  | "ne" => .ok (.fieldOp field .ne value)
  | "gt" => .ok (.fieldOp field .gt value)
  | "gte" => .ok (.fieldOp field .gte value)
  | "lt" => .ok (.fieldOp field .lt value)
  | "lte" => .ok (.fieldOp field .lte value)
  | "like" => .ok (.fieldOp field .iLike value)
  | "notLike" => .ok (.fieldOp field .notLike value)
  | "iLike" => .ok (.fieldOp field .iLike value)
  | "notILike" => .ok (.fieldOp field .notILike value)
  | "in" => .ok (.fieldOp field .inOp (if value.isArr then value else .arr [value]))
  | "notIn" => .ok (.fieldOp field .notInOp (if value.isArr then value else .arr [value]))
  | "between" =>
      .ok (.fieldOp field .between (if value.isTwoArr then value else .arr [value, value]))
  | "notBetween" =>
      .ok (.fieldOp field .notBetween (if value.isTwoArr then value else .arr [value, value]))
  | "is" => .ok (.fieldOp field .isOp value)
  | "isNot" => .ok (.fieldOp field .notOp value)
  | "startsWith" => .ok (.fieldOp field .iLike (.str (value.toJs ++ "%")))
  | "endsWith" => .ok (.fieldOp field .iLike (.str ("%" ++ value.toJs)))
  | "contains" => .ok (.fieldOp field .iLike (.str ("%" ++ value.toJs ++ "%")))
  | "regexp" => .ok (.fieldOp field .regexp value)
  | "notRegexp" => .ok (.fieldOp field .notRegexp value)
  | _ => .error ("Unsupported operator: " ++ operator)

/-- `FilterProcessor.validateCondition`: `field` and `operator` must be
truthy; a `null`/`undefined` value is only allowed for `is` / `isNot`. -/
def validateCondition (c : FilterCondition) : Bool :=
  if c.field = "" || c.operator = "" then false
  else match c.value with
    | .undef => ["is", "isNot"].contains c.operator
    | .null => ["is", "isNot"].contains c.operator
    | _ => true

/-- Per-field schema entry: allowed operators and an optional value
transform (a throwing transform is an `Except`). -/
structure FieldSchema where
  operators : List String
  transform : Option (JVal → Except String JVal) := none

/-- The (possibly empty) field schema map. -/
abbrev FilterSchema := List (String × FieldSchema)

/-- `FilterProcessor.processFilterCondition`.  The `errs` argument models the
shared mutable `errors` array; a soft failure appends to it and compiles to
the empty predicate, while an exception from `processOperator` propagates
carrying the errors accumulated so far. -/
def processFilterCondition (schema : FilterSchema) (c : FilterCondition)
    (errs : List String) : Except (String × List String) (WherePred × List String) :=
  if !validateCondition c then
    .ok (.empty, errs ++ ["Invalid filter condition for field: " ++ c.field])
  else
    match assocGet schema c.field with
    | some fieldSchema =>
        if !fieldSchema.operators.contains c.operator then
          .ok (.empty, errs ++ ["Operator '" ++ c.operator ++ "' not allowed for field '"
            ++ c.field ++ "'"])
        else
          match fieldSchema.transform with
          | some t =>
              match t c.value with
              | .ok v =>
                  match processOperator c.field c.operator v c.caseSensitive with
                  | .ok w => .ok (w, errs)
                  | .error m => .error (m, errs)
              | .error m =>
                  .ok (.empty, errs ++ ["Value transformation failed for field '"
                    ++ c.field ++ "': " ++ m])
          | none =>
              match processOperator c.field c.operator c.value c.caseSensitive with
              | .ok w => .ok (w, errs)
              | .error m => .error (m, errs)
    | none =>
        match processOperator c.field c.operator c.value c.caseSensitive with
        | .ok w => .ok (w, errs)
        | .error m => .error (m, errs)

mutual

/-- `FilterProcessor.processFilterGroup`: compile every child, then combine
under `Op.and` when the group operator is `"and"`, else `Op.or`. -/
def processFilterGroup (schema : FilterSchema) (operator : String)
    (conditions : List FilterTree) (errs : List String) :
    Except (String × List String) (WherePred × List String) :=
  match processChildren schema conditions errs with
  | .ok (ps, errs') =>
      .ok (.logic (if operator = "and" then .and else .or) ps, errs')
  | .error e => .error e

/-- The `group.conditions.map (...)` traversal: children are compiled left to
right, each discriminated between nested group and leaf condition. -/
def processChildren (schema : FilterSchema) :
    List FilterTree → List String →
    Except (String × List String) (List WherePred × List String)
  | [], errs => .ok ([], errs)
  | t :: ts, errs =>
      match (match t with
             | .group op cs => processFilterGroup schema op cs errs
             | .cond c => processFilterCondition schema c errs) with
      | .ok (p, errs1) =>
          match processChildren schema ts errs1 with
          | .ok (ps, errs2) => .ok (p :: ps, errs2)
          | .error e => .error e
      | .error e => .error e

end

/-- `FilterProcessor.processFilterArray`: conditions are compiled in order and
combined under `Op.and`. -/
def processFilterArray (schema : FilterSchema) (cs : List FilterCondition)
    (errs : List String) :
    Except (String × List String) (WherePred × List String) :=
  match processChildren schema (cs.map .cond) errs with
  | .ok (ps, errs') => .ok (.logic .and ps, errs')
  | .error e => .error e

/-- `FilterProcessor.process`: dispatch on the input shape, with the
surrounding `try/catch` converting any exception into a single
`Filter processing error: ...` entry appended to the errors collected so far,
together with an empty `where`. -/
def process (schema : FilterSchema) (input : FilterInput) : FilterResult :=
  let core :=
    match input with
    | .arr cs => processFilterArray schema cs []
    | .grp op conditions => processFilterGroup schema op conditions []
    | .cond c => processFilterCondition schema c []
  match core with
  | .ok (w, errs) => ⟨w, errs, []⟩
  | .error (m, errs) => ⟨.empty, errs ++ ["Filter processing error: " ++ m], []⟩

end FilterProcessor

/-! ## SortProcessor (src/utils/SortProcessor.ts) and SortBuilder
(src/builders/SortBuilder.ts)

The sort compiler.  `order` / `nulls` are optional strings; `""` stands for an
absent field (both are only ever tested for truthiness or membership). -/

/-- A sort condition `{column, order?, nulls?, caseSensitive?}`. -/
structure SortCondition where
  column : String := ""
  order : String := ""
  nulls : String := ""
  caseSensitive : Option Bool := none
deriving DecidableEq, Repr

/-- Per-column sort schema entry. -/
structure ColumnSchema where
  allowed : Bool := true
  defaultOrder : String := ""
  caseSensitive : Option Bool := none
  nulls : String := ""
deriving DecidableEq, Repr

/-- The (possibly empty) column schema map. -/
abbrev SortSchema := List (String × ColumnSchema)

/-- A compiled column reference: the bare column name, or
`sequelize.fn('LOWER', sequelize.col(column))` when case-insensitive
comparison is forced. -/
inductive SortExpr where
  | col (c : String)
  | lowerCol (c : String)
deriving DecidableEq, Repr

/-- One compiled ordering instruction `[expr, order]`, optionally wrapping the
expression as `[expr, 'NULLS FIRST'|'NULLS LAST']`; `nullsDirective = ""`
means no null-placement wrapper. -/
structure SortInstr where
  expr : SortExpr
  nullsDirective : String := ""
  order : String
deriving DecidableEq, Repr

/-- Result object `{order, errors, warnings}` of the sort compiler. -/
structure SortResult where
  order : List SortInstr
  errors : List String
  warnings : List String
deriving DecidableEq, Repr

namespace SortProcessor

/-- `SortProcessor.validateCondition`. -/
def validateCondition (c : SortCondition) : Bool :=
  if c.column = "" then false
  else if c.order ≠ "" && !(["ASC", "DESC"].contains c.order) then false
  else if c.nulls ≠ "" && !(["first", "last"].contains c.nulls) then false
  else true

/-- The instruction-building tail of `processSortCondition`, applied once the
condition is valid and not schema-rejected; `cs` is the column schema entry
when one exists. -/
def buildInstr (c : SortCondition) (cs : Option ColumnSchema) : SortInstr :=
  let order := jsOrStr c.order (jsOrStr (match cs with | some s => s.defaultOrder | none => "") "ASC")
  let expr : SortExpr :=
    if c.caseSensitive = some false
        || (match cs with | some s => s.caseSensitive | none => none) = some false then
      .lowerCol c.column
    else .col c.column
  let nulls := jsOrStr c.nulls (match cs with | some s => s.nulls | none => "")
  { expr,
    nullsDirective := if nulls ≠ "" then (if nulls = "first" then "NULLS FIRST" else "NULLS LAST") else "",
    order }

/-- `SortProcessor.processSortCondition`: `none` (JavaScript `null`) for a
skipped condition, together with the errors it contributed. -/
def processSortCondition (schema : SortSchema) (c : SortCondition) :
    Option SortInstr × List String :=
  if !validateCondition c then
    (none, ["Invalid sort condition for column: " ++ c.column])
  else
    match assocGet schema c.column with
    | some cs =>
        if !cs.allowed then
          (none, ["Column '" ++ c.column ++ "' is not allowed for sorting"])
        else (some (buildInstr c (some cs)), [])
    | none => (some (buildInstr c none), [])

/-- `SortProcessor.process` on an array input (`processSortArray` followed by
`.filter(Boolean)`).  Every call site in the repository passes an array, so
the single-condition overload of the source is not modelled; nothing in the
array path can throw, so the surrounding `try/catch` is inert. -/
def process (schema : SortSchema) (sorts : List SortCondition) : SortResult :=
  let rs := sorts.map (processSortCondition schema)
  { order := rs.filterMap Prod.fst,
    errors := (rs.map Prod.snd).flatten,
    warnings := [] }

end SortProcessor

namespace SortBuilder

/-- `SortBuilder.processFromOptions`: builds at most one condition from the
options object (only when both `column` and `order` are truthy) and runs it
through a schema-less `SortProcessor`, which is how `AdvancedQueryBuilder`
constructs its `sortBuilder`. -/
def processFromOptions (c : SortCondition) : SortResult :=
  let conditions : List SortCondition :=
    if c.column ≠ "" && c.order ≠ "" then
      [{ column := c.column, order := c.order, nulls := c.nulls,
         caseSensitive := c.caseSensitive }]
    else []
  SortProcessor.process [] conditions

end SortBuilder

/-! ## PaginationBuilder (src/builders/PaginationBuilder.ts) -/

/-- Pagination configuration (constructor defaults of the source). -/
structure PaginationConfig where
  defaultPageSize : Int := 10
  maxPageSize : Int := 100
  enableOffset : Bool := true
  enableCursor : Bool := false
deriving DecidableEq, Repr

/-- Pagination options: page-based and/or offset-based fields. -/
structure PaginationOptions where
  page : Option Int := none
  pageSize : Option Int := none
  offset : Option Int := none
  limit : Option Int := none
deriving DecidableEq, Repr

/-- Validation outcome `{isValid, errors}`. -/
structure PgValidation where
  isValid : Bool
  errors : List String
deriving DecidableEq, Repr

/-- The `{offset, limit, page, pageSize}` tuple returned by
`PaginationBuilder.process`. -/
structure ResolvedPagination where
  offset : Int
  limit : Int
  page : Int
  pageSize : Int
deriving DecidableEq, Repr

namespace PaginationBuilder

/-- `PaginationBuilder.validate`.  The `Number.isInteger` conjuncts of the
source are identically true in the integer embedding. -/
def validate (cfg : PaginationConfig) (o : PaginationOptions) : PgValidation :=
  let errs :=
    (match o.page with
     | some p => if p < 1 then ["Page must be a positive integer"] else []
     | none => [])
    ++ (match o.pageSize with
     | some s =>
         if s < 1 then ["Page size must be a positive integer"]
         else if s > cfg.maxPageSize then
           ["Page size cannot exceed " ++ toString cfg.maxPageSize]
         else []
     | none => [])
    ++ (match o.offset with
     | some x => if x < 0 then ["Offset must be a non-negative integer"] else []
     | none => [])
    ++ (match o.limit with
     | some l =>
         if l < 1 then ["Limit must be a positive integer"]
         else if l > cfg.maxPageSize then
           ["Limit cannot exceed " ++ toString cfg.maxPageSize]
         else []
     | none => [])
    ++ (if (o.page.isSome || o.pageSize.isSome) && (o.offset.isSome || o.limit.isSome) then
          ["Cannot use both page-based and offset-based pagination"]
        else [])
  { isValid := errs.isEmpty, errors := errs }

/-- `PaginationBuilder.calculateOffset`. -/
def calculateOffset (page pageSize : Int) : Int :=
  (page - 1) * pageSize

/-- `PaginationBuilder.process`: validate, then resolve either the offset
fields directly or `page`/`pageSize` (clamped by `Math.min` against the
configured maximum) into `{offset, limit, page, pageSize}`; invalid options
throw a `PaginationError`. -/
def process (cfg : PaginationConfig) (o : PaginationOptions) :
    Except QBError ResolvedPagination :=
  let v := validate cfg o
  if v.isValid then
    let page := jsOrInt o.page 1
    let pageSize := min (jsOrInt o.pageSize cfg.defaultPageSize) cfg.maxPageSize
    if o.offset.isSome && cfg.enableOffset then
      .ok { offset := o.offset.getD 0, limit := jsOrInt o.limit cfg.defaultPageSize,
            page, pageSize }
    else
      .ok { offset := calculateOffset page pageSize, limit := pageSize, page, pageSize }
  else
    .error (.pagination ("Invalid pagination options: " ++ String.intercalate ", " v.errors)
      "INVALID_PAGINATION_OPTIONS")

/-- `PaginationBuilder.calculateTotalPages`, i.e.
`Math.ceil(total / pageSize)`: the exact rational quotient rounded up. -/
def calculateTotalPages (total pageSize : Int) : Int :=
  ⌈(total : ℚ) / (pageSize : ℚ)⌉

end PaginationBuilder

/-! ## Result envelope and pagination metadata (src/types/QueryTypes.ts) -/

/-- The `performance` payload of a result envelope. -/
structure QueryPerformance where
  executionTime : Int
  queryCount : Int
  cacheHit : Bool
deriving DecidableEq, Repr

/-- The `pagination` metadata of a paginated envelope. -/
structure PaginationMeta where
  page : Int
  pageSize : Int
  total : Int
  totalPages : Int
  hasNext : Bool
  hasPrev : Bool
deriving DecidableEq, Repr

/-- The result envelope `{data, count?, pagination?, performance?}` returned
to callers; rows are opaque record-store values. -/
structure QueryResult where
  data : List JVal
  count : Option Int := none
  pagination : Option PaginationMeta := none
  performance : Option QueryPerformance := none

/-- `PaginationBuilder.buildResult`: wrap rows with pagination metadata
computed from `total`, `page` and `pageSize`; no `performance` field is set
here. -/
def PaginationBuilder.buildResult (data : List JVal) (total page pageSize : Int) :
    QueryResult :=
  let totalPages := PaginationBuilder.calculateTotalPages total pageSize
  { data,
    pagination := some
      { page, pageSize, total, totalPages,
        hasNext := decide (page < totalPages),
        hasPrev := decide (page > 1) } }

/-! ## ValidationUtils (src/utils/ValidationUtils.ts)

The Joi schemas used by the `with...` builder methods.  Joi failures become a
`ValidationError` via `ValidationError.fromJoiError`; the exact Joi message
text is abbreviated, which no claim depends on. -/

namespace ValidationUtils

/-- `ValidationUtils.validatePagination`: the Joi `pagination` schema.  Every
field is optional; `page ≥ 1`, `1 ≤ pageSize ≤ 1000`, `offset ≥ 0`,
`1 ≤ limit ≤ 1000`.  There is no rule relating the page-based and
offset-based field groups. -/
def validatePagination (o : PaginationOptions) : Except QBError PaginationOptions :=
  let errs :=
    (match o.page with
     | some p => if p < 1 then ["page must be greater than or equal to 1"] else []
     | none => [])
    ++ (match o.pageSize with
     | some s =>
         if s < 1 then ["pageSize must be greater than or equal to 1"]
         else if s > 1000 then ["pageSize must be less than or equal to 1000"]
         else []
     | none => [])
    ++ (match o.offset with
     | some x => if x < 0 then ["offset must be greater than or equal to 0"] else []
     | none => [])
    ++ (match o.limit with
     | some l =>
         if l < 1 then ["limit must be greater than or equal to 1"]
         else if l > 1000 then ["limit must be less than or equal to 1000"]
         else []
     | none => [])
  if errs.isEmpty then .ok o
  else .error (.validation (String.intercalate ", " errs) "VALIDATION_ERROR")

/-- `ValidationUtils.validateSorting`: the Joi `sort` schema.  `column` is a
required non-empty string, `order` is required and must be `ASC`/`DESC`,
`nulls` is optional `first`/`last`, `caseSensitive` an optional boolean. -/
def validateSorting (o : SortCondition) : Except QBError SortCondition :=
  let errs :=
    (if o.column = "" then ["column is required"] else [])
    ++ (if !(["ASC", "DESC"].contains o.order) then ["order must be one of ASC, DESC"] else [])
    ++ (if o.nulls ≠ "" && !(["first", "last"].contains o.nulls) then
          ["nulls must be one of first, last"]
        else [])
  if errs.isEmpty then .ok o
  else .error (.validation (String.intercalate ", " errs) "VALIDATION_ERROR")

end ValidationUtils

/-! ## PerformanceMonitor (src/utils/PerformanceMonitor.ts) -/

/-- The per-execution metrics record. -/
structure PerformanceMetrics where
  queryExecutionTime : Int
  totalExecutionTime : Int
  memoryUsage : Int
  queryCount : Int
  cacheHits : Int
  cacheMisses : Int
deriving DecidableEq, Repr

/-- Monitor state: the enable flag, the warning threshold (milliseconds) and
the live `Map` of in-flight metrics keyed by monitor id. -/
structure MonitorState where
  enabled : Bool := true
  threshold : Int := 1000
  metrics : List (String × PerformanceMetrics) := []
deriving DecidableEq, Repr

namespace PerformanceMonitor

/-- `generateMonitorId`:
`method + '_' + model.name + '_' + requestId + '_' + Date.now()`. -/
def generateMonitorId (method modelName requestId : String) (now : Int) : String :=
  method ++ "_" ++ modelName ++ "_" ++ requestId ++ "_" ++ toString now

/-- `startMonitoring`: returns `""` when disabled, otherwise allocates a
zeroed metrics record under a fresh monitor id. -/
def startMonitoring (st : MonitorState) (method modelName requestId : String)
    (now : Int) : String × MonitorState :=
  if !st.enabled then ("", st)
  else
    let monitorId := generateMonitorId method modelName requestId now
    (monitorId, { st with metrics := assocSet st.metrics monitorId ⟨0, 0, 0, 0, 0, 0⟩ })

/-- `endMonitoring`.  The source samples the clock twice:
`const endTime = Date.now()` and then
`metrics.totalExecutionTime = endTime - Date.now()` — the start time is never
stored (the `_startTime` line is commented out), so the recorded total is the
difference between the two end-side samples, not the elapsed time since
`startMonitoring`.  Returns the finalized record, whether the
threshold-exceeded `console.warn` fired, and the state with the record
removed from the live map. -/
def endMonitoring (st : MonitorState) (monitorId : String) (endTime secondSample : Int) :
    Option PerformanceMetrics × Bool × MonitorState :=
  if !st.enabled || monitorId = "" then (none, false, st)
  else
    match assocGet st.metrics monitorId with
    | none => (none, false, st)
    | some m =>
        let m' := { m with totalExecutionTime := endTime - secondSample }
        (some m', decide (m'.totalExecutionTime > st.threshold),
         { st with metrics := assocDel st.metrics monitorId })

/-- `recordQueryExecution`: accumulate execution time and bump the sub-query
count. -/
def recordQueryExecution (st : MonitorState) (monitorId : String) (executionTime : Int) :
    MonitorState :=
  if !st.enabled || monitorId = "" then st
  else
    match assocGet st.metrics monitorId with
    | none => st
    | some m =>
        let m' := { m with queryExecutionTime := m.queryExecutionTime + executionTime,
                            queryCount := m.queryCount + 1 }
        { st with metrics := assocSet st.metrics monitorId m' }

/-- `recordCacheHit`. -/
def recordCacheHit (st : MonitorState) (monitorId : String) : MonitorState :=
  if !st.enabled || monitorId = "" then st
  else
    match assocGet st.metrics monitorId with
    | none => st
    | some m =>
        let m' := { m with cacheHits := m.cacheHits + 1 }
        { st with metrics := assocSet st.metrics monitorId m' }

end PerformanceMonitor

/-! ## Cache layer (src/utils/CacheManager.ts) -/

/-- A cache entry `{value, expires}` of the in-memory provider. -/
structure CacheEntry where
  value : QueryResult
  expires : Int

/-- The in-memory provider's backing `Map`. -/
abbrev MemoryCache := List (String × CacheEntry)

namespace MemoryCacheProvider

/-- `MemoryCacheProvider.get`: a read lazily evicts an expired entry
(`Date.now() > item.expires`) and reports a miss. -/
def get (cache : MemoryCache) (now : Int) (key : String) :
    Option QueryResult × MemoryCache :=
  match assocGet cache key with
  | none => (none, cache)
  | some item =>
      if now > item.expires then (none, assocDel cache key)
      else (some item.value, cache)

/-- `MemoryCacheProvider.set`: store with
`expires = Date.now() + ttl * 1000`. -/
def set (cache : MemoryCache) (now ttl : Int) (key : String) (value : QueryResult) :
    MemoryCache :=
  assocSet cache key { value, expires := now + ttl * 1000 }

end MemoryCacheProvider

namespace CacheManager

/-- The key namespace prepended by `CacheManager` (`this.keyPrefix`). -/
def keyNamespace : String := "sqb:"

/-- `CacheManager.get`: `null` when disabled, otherwise delegate under the
namespaced key. -/
def get (enabled : Bool) (cache : MemoryCache) (now : Int) (key : String) :
    Option QueryResult × MemoryCache :=
  if !enabled then (none, cache)
  else MemoryCacheProvider.get cache now (keyNamespace ++ key)

/-- `CacheManager.set`: no-op when disabled, otherwise store under the
namespaced key with the default TTL (`execute` passes no per-call TTL). -/
def set (enabled : Bool) (ttl : Int) (cache : MemoryCache) (now : Int)
    (key : String) (value : QueryResult) : MemoryCache :=
  if !enabled then cache
  else MemoryCacheProvider.set cache now ttl (keyNamespace ++ key) value

/-- `CacheManager.generateKey`: join the parts with `:`. -/
def generateKey (pre : String) (parts : List String) : String :=
  String.intercalate ":" (pre :: parts)

end CacheManager

/-! ## JoinBuilder (src/builders/JoinBuilder.ts) -/

/-- A join option `{model, as?, required?, attributes?, where?, include?}`.
`model` is the target relation name with `""` for an absent/falsy value;
`asName` models `as` the same way; `include` nests recursively, `[]` standing
for an absent or empty array (the source only ever tests
`join.include && join.include.length > 0`). -/
inductive JoinOptions where
  | mk (model : String) (asName : String) (required : Option Bool)
      (attributes : Option (List String)) (whereRaw : Option JVal)
      (includeList : List JoinOptions)

/-- Target relation of a join option. -/
def JoinOptions.model : JoinOptions → String
  | .mk m _ _ _ _ _ => m

/-- Alias (`as`) of a join option. -/
def JoinOptions.asName : JoinOptions → String
  | .mk _ a _ _ _ _ => a

/-- `required` flag of a join option. -/
def JoinOptions.required : JoinOptions → Option Bool
  | .mk _ _ r _ _ _ => r

/-- `attributes` of a join option. -/
def JoinOptions.attributes : JoinOptions → Option (List String)
  | .mk _ _ _ a _ _ => a

/-- `where` of a join option (an opaque pass-through object). -/
def JoinOptions.whereRaw : JoinOptions → Option JVal
  | .mk _ _ _ _ w _ => w

/-- Nested `include` of a join option (named `includeList` because `include`
is a Lean keyword). -/
def JoinOptions.includeList : JoinOptions → List JoinOptions
  | .mk _ _ _ _ _ i => i

/-- A compiled inclusion node as produced by `JoinBuilder.buildInclude`; the
nested `include` array is passed through as the raw join options stored on
the input. -/
structure IncludeNode where
  model : String
  required : Option Bool := none
  attributes : Option (List String) := none
  whereRaw : Option JVal := none
  asName : Option String := none
  includeList : List JoinOptions := []

namespace JoinBuilder

/-- `JoinBuilder.addJoins` / `addJoin`: validate each join (a falsy `model`
throws `QueryError INVALID_JOIN_MODEL`; the `attributes` array check is
identically true in the embedding) and append it to the builder's working
set. -/
def addJoins (accum : List JoinOptions) : List JoinOptions → Except QBError (List JoinOptions)
  | [] => .ok accum
  | j :: js =>
      if j.model = "" then
        .error (.query "Join model is required" "INVALID_JOIN_MODEL")
      else addJoins (accum ++ [j]) js

/-- `JoinBuilder.buildInclude` on a single join: copy `model`, conditionally
spread `required`/`attributes`/`where`, set `as` when truthy, attach the
nested include array when non-empty. -/
def buildIncludeNode (j : JoinOptions) : IncludeNode :=
  { model := j.model,
    required := j.required,
    attributes := j.attributes,
    whereRaw := j.whereRaw,
    asName := if j.asName ≠ "" then some j.asName else none,
    includeList := if j.includeList.length > 0 then j.includeList else [] }

/-- `JoinBuilder.build`: map the working set through `buildInclude`; the
trailing `.filter(Boolean)` is inert because every produced node is an
object. -/
def build (joins : List JoinOptions) : List IncludeNode :=
  joins.map buildIncludeNode

end JoinBuilder

/-! ## FilterBuilder.processFromOptions (src/builders/FilterBuilder.ts) -/

/-- The `FilterOptions` object consumed by `withFilters`: optional
`search`/`searchFields` plus the remaining enumerable key/value entries in
insertion order. -/
structure FilterOptions where
  search : Option String := none
  searchFields : Option (List String) := none
  entries : List (String × JVal) := []

/-- `FilterBuilder.processFromOptions`.  When both `search` and
`searchFields` are truthy the source pushes a pseudo-condition
`{field:'__search__', operator:'or', value: searchConditions}`; its value is
an array of per-field conditions that is never inspected, because
`processOperator` has no `'or'` case and throws first — the embedding stores
the field list opaquely in the value slot.  Remaining entries become `eq`
conditions, skipping `undefined`/`null` values.  The builder's processor has
an empty schema (`new FilterProcessor()`). -/
def FilterBuilder.processFromOptions (o : FilterOptions) : FilterResult :=
  let searchConds : List FilterCondition :=
    match o.search, o.searchFields with
    | some s, some fields =>
        if s ≠ "" then
          [{ field := "__search__", operator := "or",
             value := .arr (fields.map JVal.str), caseSensitive := none }]
        else []
    | _, _ => []
  let keyConds : List FilterCondition :=
    o.entries.filterMap fun e =>
      match e.2 with
      | .undef => none
      | .null => none
      | v => some { field := e.1, operator := "eq", value := v }
  FilterProcessor.process [] (.arr (searchConds ++ keyConds))

/-! ## AdvancedQueryBuilder (src/builders/AdvancedQueryBuilder.ts) -/

/-- The mutable `currentOptions` specification held by the orchestrator. -/
structure AdvancedQueryOptions where
  pagination : Option PaginationOptions := none
  filters : Option FilterOptions := none
  sorting : Option (List SortCondition) := none
  joins : Option (List JoinOptions) := none
  attributes : Option (List String) := none
  whereRaw : Option JVal := none
  group : Option (List String) := none
  having : Option JVal := none
  distinct : Option Bool := none
  subQuery : Option Bool := none
  benchmark : Option Bool := none
  logging : Option Bool := none

/-- The assembled query plan (`options` object built by `buildQueryOptions`).
The source merges the compiled filter predicate and the raw `where`
pass-through with an object spread; the two components are tracked in
separate fields here. -/
structure QueryPlan where
  offset : Option Int := none
  limit : Option Int := none
  whereCompiled : Option WherePred := none
  whereRaw : Option JVal := none
  order : Option (List SortInstr) := none
  includeList : Option (List IncludeNode) := none
  attributes : Option (List String) := none
  group : Option (List String) := none
  having : Option JVal := none
  distinct : Option Bool := none
  subQuery : Option Bool := none
  benchmark : Option Bool := none
  logging : Option Bool := none

/-! ## Cache-key serialization

`generateCacheKey` feeds `JSON.stringify(this.currentOptions)` into the key.
The embedding uses a canonical rendering of the options record; the claims
depend only on the key being a deterministic function of the model name and
the current options, which any total serializer provides. -/

mutual

/-- Canonical rendering of a `JVal` for cache keys. -/
def serializeJVal : JVal → String
  | .undef => "u"
  | .null => "z"
  | .bool b => if b then "bT" else "bF"
  | .num n => "n" ++ toString n
  | .str s => "s(" ++ s ++ ")"
  | .arr xs => "a(" ++ serializeJValList xs ++ ")"

/-- Canonical rendering of a `JVal` list. -/
def serializeJValList : List JVal → String
  | [] => ""
  | x :: xs => serializeJVal x ++ ";" ++ serializeJValList xs

end

/-- Canonical rendering of an optional integer. -/
def serializeOptInt : Option Int → String
  | none => "_"
  | some n => toString n

/-- Canonical rendering of an optional boolean. -/
def serializeOptBool : Option Bool → String
  | none => "_"
  | some true => "T"
  | some false => "F"

/-- Canonical rendering of a string list. -/
def serializeStrList (l : List String) : String :=
  String.intercalate ";" l

/-- Canonical rendering of an optional string list. -/
def serializeOptStrList : Option (List String) → String
  | none => "_"
  | some l => "(" ++ serializeStrList l ++ ")"

/-- Canonical rendering of an optional `JVal`. -/
def serializeOptJVal : Option JVal → String
  | none => "_"
  | some v => serializeJVal v

/-- Canonical rendering of pagination options. -/
def serializePagination (o : PaginationOptions) : String :=
  "pg(" ++ serializeOptInt o.page ++ "," ++ serializeOptInt o.pageSize ++ ","
    ++ serializeOptInt o.offset ++ "," ++ serializeOptInt o.limit ++ ")"

/-- Canonical rendering of a sort condition. -/
def serializeSort (c : SortCondition) : String :=
  "st(" ++ c.column ++ "," ++ c.order ++ "," ++ c.nulls ++ ","
    ++ serializeOptBool c.caseSensitive ++ ")"

/-- Canonical rendering of filter options. -/
def serializeFilterOptions (o : FilterOptions) : String :=
  "fl(" ++ (match o.search with | none => "_" | some v => "(" ++ v ++ ")") ++ ","
    ++ serializeOptStrList o.searchFields ++ ","
    ++ String.intercalate ";" (o.entries.map fun e => e.1 ++ "=" ++ serializeJVal e.2)
    ++ ")"

mutual

/-- Canonical rendering of a join option. -/
def serializeJoin : JoinOptions → String
  | .mk m a r attrs w inc =>
      "jn(" ++ m ++ "," ++ a ++ "," ++ serializeOptBool r ++ ","
        ++ serializeOptStrList attrs ++ "," ++ serializeOptJVal w ++ ","
        ++ serializeJoinList inc ++ ")"

/-- Canonical rendering of a join option list. -/
def serializeJoinList : List JoinOptions → String
  | [] => ""
  | j :: js => serializeJoin j ++ ";" ++ serializeJoinList js

end

/-- Canonical rendering of the whole `currentOptions` record, standing in for
`JSON.stringify(this.currentOptions)`. -/
def serializeOptions (o : AdvancedQueryOptions) : String :=
  "(" ++ (match o.pagination with | none => "_" | some p => serializePagination p) ++ ","
    ++ (match o.filters with | none => "_" | some f => serializeFilterOptions f) ++ ","
    ++ (match o.sorting with
        | none => "_"
        | some l => "(" ++ String.intercalate ";" (l.map serializeSort) ++ ")") ++ ","
    ++ (match o.joins with | none => "_" | some l => "(" ++ serializeJoinList l ++ ")") ++ ","
    ++ serializeOptStrList o.attributes ++ ","
    ++ serializeOptJVal o.whereRaw ++ ","
    ++ serializeOptStrList o.group ++ ","
    ++ serializeOptJVal o.having ++ ","
    ++ serializeOptBool o.distinct ++ ","
    ++ serializeOptBool o.subQuery ++ ","
    ++ serializeOptBool o.benchmark ++ ","
    ++ serializeOptBool o.logging ++ ")"

/-- The `message` property of an embedded error object. -/
def QBError.message : QBError → String
  | .validation m _ => m
  | .pagination m _ => m
  | .query m _ => m

/-- `QueryError.fromError` (the `QueryError` class is the second document
concatenated into src/errors/ValidationError.ts):
`new QueryError(error.message, code || 'QUERY_ERROR',
{originalError: error.name, stack: error.stack}, requestId)` — the wrap
preserves the original message and attaches the given code, falling back to
`QUERY_ERROR` when the code argument is falsy.  The diagnostic `details`,
`timestamp` and `requestId` properties of the error classes are not
represented in the `QBError` embedding; no claim inspects them. -/
def QueryError.fromError (e : QBError) (code : String) : QBError :=
  .query e.message (jsOrStr code "QUERY_ERROR")

namespace AdvancedQueryBuilder

/-- `AdvancedQueryBuilder.withPagination`: validate through the Joi
pagination schema and, on success, store the validated options (replacing any
previously stored pagination wholesale). -/
def withPagination (opts : AdvancedQueryOptions) (o : PaginationOptions) :
    Except QBError AdvancedQueryOptions :=
  match ValidationUtils.validatePagination o with
  | .ok v => .ok { opts with pagination := some v }
  | .error e => .error e

/-- `AdvancedQueryBuilder.withSortings`: validate every entry through the Joi
sort schema, throw the first validation error if any, otherwise store the
full validated list. -/
def withSortings (opts : AdvancedQueryOptions) (sorts : List SortCondition) :
    Except QBError AdvancedQueryOptions :=
  let validations := sorts.map ValidationUtils.validateSorting
  match validations.filterMap (fun r => match r with | .error e => some e | .ok _ => none) with
  | e :: _ => .error e
  | [] => .ok { opts with sorting := some (validations.filterMap Except.toOption) }

/-- `AdvancedQueryBuilder.buildQueryOptions`.  Sorting compiles only
`currentOptions.sorting[0]`; with a stored empty list the source dereferences
`undefined` and the resulting native `TypeError` propagates (modelled as a
generic error).  `distinct` is only copied when `true` (plain truthiness
test); `subQuery`/`benchmark`/`logging` are copied whenever defined.  Joins
are appended to the join builder's persistent working set `joinsAccum` before
`build()` runs over the whole set. -/
def buildQueryOptions (cfg : PaginationConfig) (o : AdvancedQueryOptions)
    (joinsAccum : List JoinOptions) : Except QBError (QueryPlan × List JoinOptions) :=
  let base : QueryPlan := {}
  let afterPagination : Except QBError QueryPlan :=
    match o.pagination with
    | some po =>
        match PaginationBuilder.process cfg po with
        | .ok r => .ok { base with offset := some r.offset, limit := some r.limit }
        | .error e => .error e
    | none => .ok base
  match afterPagination with
  | .error e => .error e
  | .ok p1 =>
    let afterFilters : Except QBError QueryPlan :=
      match o.filters with
      | some fo =>
          let fr := FilterBuilder.processFromOptions fo
          if fr.errors.length > 0 then
            .error (.validation ("Filter errors: " ++ String.intercalate ", " fr.errors)
              "FILTER_PROCESSING_ERROR")
          else .ok { p1 with whereCompiled := some fr.whereClause }
      | none => .ok p1
    match afterFilters with
    | .error e => .error e
    | .ok p2 =>
      let afterSorting : Except QBError QueryPlan :=
        match o.sorting with
        | some [] =>
            .error (.query "TypeError: Cannot read properties of undefined" "TYPE_ERROR")
        | some (c :: _) =>
            let sr := SortBuilder.processFromOptions c
            if sr.errors.length > 0 then
              .error (.validation ("Sort errors: " ++ String.intercalate ", " sr.errors)
                "SORT_PROCESSING_ERROR")
            else .ok { p2 with order := some sr.order }
        | none => .ok p2
      match afterSorting with
      | .error e => .error e
      | .ok p3 =>
        let afterJoins : Except QBError (QueryPlan × List JoinOptions) :=
          match o.joins with
          | some js =>
              match JoinBuilder.addJoins joinsAccum js with
              | .ok ja => .ok ({ p3 with includeList := some (JoinBuilder.build ja) }, ja)
              | .error e => .error e
          | none => .ok (p3, joinsAccum)
        match afterJoins with
        | .error e => .error e
        | .ok (p4, ja) =>
            .ok ({ p4 with
              attributes := o.attributes,
              whereRaw := o.whereRaw,
              group := o.group,
              having := o.having,
              distinct := (match o.distinct with | some true => some true | _ => none),
              subQuery := o.subQuery,
              benchmark := o.benchmark,
              logging := o.logging }, ja)

end AdvancedQueryBuilder

/-! ## Executing a query (`AdvancedQueryBuilder.execute`)

The record store is the external collaborator of §6 of the specification:
`findAll`/`count` are abstracted as pure functions of the submitted plan, and
the number of calls made to each is counted in the execution state.  All
`Date.now()` samples within one `execute` call share the single `now`
argument (the call is modelled as completing within one clock millisecond);
the cross-call clock is explicit in `now`. -/

/-- Orchestrator configuration relevant to execution. -/
structure BuilderConfig where
  pagination : PaginationConfig := {}
  enableCaching : Bool := false
  cacheTTL : Int := 300
  monitorEnabled : Bool := true
  performanceThreshold : Int := 1000

/-- The execution environment: the model's name, the request id, and the
record store's responses as pure functions of the plan. -/
structure ExecEnv where
  modelName : String
  requestId : String
  findAllRows : QueryPlan → List JVal
  countValue : QueryPlan → Int

/-- All mutable state touched by `execute`: the cache provider's map, the
performance monitor's live metrics map, the join builder's persistent working
set, and the record-store call counters. -/
structure ExecState where
  cache : MemoryCache := []
  monitorMetrics : List (String × PerformanceMetrics) := []
  joinsAccum : List JoinOptions := []
  findAllCalls : Nat := 0
  countCalls : Nat := 0

namespace AdvancedQueryBuilder

/-- `AdvancedQueryBuilder.generateCacheKey`:
`generateKey('query', model.name, JSON.stringify(currentOptions), suffix)`. -/
def generateCacheKey (modelName : String) (o : AdvancedQueryOptions)
    (suffix : String) : String :=
  CacheManager.generateKey "query" [modelName, serializeOptions o, suffix]

/-- `AdvancedQueryBuilder.getTotalCount`'s plan surgery: the count query drops
`offset`, `limit`, `order` and `attributes`. -/
def countOptions (plan : QueryPlan) : QueryPlan :=
  { plan with offset := none, limit := none, order := none, attributes := none }

/-- The tail of a successful `execute`: finalize monitoring and attach the
metrics-derived `performance` payload (always with `cacheHit: false`), and
store the envelope in the cache.  The source calls `cacheManager.set` before
mutating `finalResult.performance`, but the in-memory provider stores the
very object that is then mutated, so the cached envelope carries the final
performance payload; the model therefore stores the final envelope. -/
def finishExecution (cfg : BuilderConfig) (cacheKey : String) (now : Int)
    (mon : MonitorState) (monitorId : String) (base : QueryResult)
    (st : ExecState) : Except QBError QueryResult × ExecState :=
  let ended := PerformanceMonitor.endMonitoring mon monitorId now now
  let finalResult :=
    match ended.1 with
    | some m => { base with performance := some ⟨m.totalExecutionTime, m.queryCount, false⟩ }
    | none => base
  let cache' := CacheManager.set cfg.enableCaching cfg.cacheTTL st.cache now cacheKey finalResult
  (.ok finalResult, { st with cache := cache', monitorMetrics := ended.2.2.metrics })

/-- The cache-miss path of `execute`: build the plan (a thrown
`ValidationError`/`PaginationError` is caught, monitoring is finalized and a
`QueryError` with code `ADVANCED_QUERY_ERROR` is raised), submit it to the
record store, re-resolve pagination and fetch a separate total count when
pagination was requested, and finish. -/
def executeMiss (env : ExecEnv) (cfg : BuilderConfig) (opts : AdvancedQueryOptions)
    (now : Int) (st : ExecState) (monitorId : String) (mon : MonitorState)
    (cacheKey : String) : Except QBError QueryResult × ExecState :=
  match buildQueryOptions cfg.pagination opts st.joinsAccum with
  | .error e =>
      let ended := PerformanceMonitor.endMonitoring mon monitorId now now
      (.error (QueryError.fromError e "ADVANCED_QUERY_ERROR"),
       { st with monitorMetrics := ended.2.2.metrics })
  | .ok (plan, ja) =>
      let rows := env.findAllRows plan
      let st1 := { st with joinsAccum := ja, findAllCalls := st.findAllCalls + 1 }
      let executionTime : Int := now - now
      let mon2 := PerformanceMonitor.recordQueryExecution mon monitorId executionTime
      match opts.pagination with
      | some po =>
          match PaginationBuilder.process cfg.pagination po with
          | .error e =>
              let ended := PerformanceMonitor.endMonitoring mon2 monitorId now now
              (.error (QueryError.fromError e "ADVANCED_QUERY_ERROR"),
               { st1 with monitorMetrics := ended.2.2.metrics })
          | .ok pg =>
              let total := env.countValue (countOptions plan)
              let st2 := { st1 with countCalls := st1.countCalls + 1 }
              finishExecution cfg cacheKey now mon2 monitorId
                (PaginationBuilder.buildResult rows total pg.page pg.pageSize) st2
      | none =>
          finishExecution cfg cacheKey now mon2 monitorId
            { data := rows, performance := some ⟨executionTime, 1, false⟩ } st1

/-- `AdvancedQueryBuilder.execute`: start monitoring, consult the cache and
return the cached envelope on a hit (recording the hit on the monitor only —
monitoring is not finalized on this path), otherwise run the miss path. -/
def execute (env : ExecEnv) (cfg : BuilderConfig) (opts : AdvancedQueryOptions)
    (now : Int) (st : ExecState) : Except QBError QueryResult × ExecState :=
  let mon0 : MonitorState := ⟨cfg.monitorEnabled, cfg.performanceThreshold, st.monitorMetrics⟩
  let started := PerformanceMonitor.startMonitoring mon0 "findAll" env.modelName env.requestId now
  let monitorId := started.1
  let cacheKey := generateCacheKey env.modelName opts ""
  if cfg.enableCaching then
    match CacheManager.get cfg.enableCaching st.cache now cacheKey with
    | (some cached, cache') =>
        let mon2 := PerformanceMonitor.recordCacheHit started.2 monitorId
        (.ok cached, { st with cache := cache', monitorMetrics := mon2.metrics })
    | (none, cache') =>
        executeMiss env cfg opts now { st with cache := cache' } monitorId started.2 cacheKey
  else
    executeMiss env cfg opts now st monitorId started.2 cacheKey

end AdvancedQueryBuilder

/-! ## Theorems settling the claims -/

/-- C4 (counterexample): compiling the condition
`{field:'age', operator:'or', value:1}` — whose operator is outside the
supported operator-to-predicate table — through `FilterProcessor.process`
returns a normal result object with the problem collected as a soft entry in
`errors` (and an empty predicate); no exception reaches the caller, refuting
the claimed hard compile failure. -/
theorem processUnsupportedOperatorSoftConcrete :
    FilterProcessor.process [] (.cond ⟨"age", "or", .num 1, none⟩)
      = ⟨.empty, ["Filter processing error: Unsupported operator: or"], []⟩ := rfl

/-- C4 (amended): for every condition with truthy field and operator, a
defined non-null value, no field-schema entry, and an operator outside the
supported operator table, the internal `processOperator` does throw
`Unsupported operator: ...`, but `process`'s safety net catches the exception
and returns a normal result whose `errors` list carries the single generic
entry, with an empty `where`; the exception never reaches the caller of
`process`. -/
theorem processUnsupportedOperatorSoft (schema : FilterProcessor.FilterSchema)
    (c : FilterCondition)
    (hf : c.field ≠ "") (hop2 : c.operator ≠ "")
    (hu : c.value ≠ .undef) (hn : c.value ≠ .null)
    (hop : ¬ supportedOperators.contains c.operator)
    (hs : assocGet schema c.field = none) :
    FilterProcessor.processOperator c.field c.operator c.value c.caseSensitive
        = .error ("Unsupported operator: " ++ c.operator)
    ∧ FilterProcessor.process schema (.cond c)
        = ⟨.empty, ["Filter processing error: " ++ ("Unsupported operator: " ++ c.operator)],
           []⟩ := by
  have hvalid : FilterProcessor.validateCondition c = true := by
    unfold FilterProcessor.validateCondition
    rw [if_neg (by simp [hf, hop2])]
    cases hv : c.value <;> simp_all
  have hpo : FilterProcessor.processOperator c.field c.operator c.value c.caseSensitive
      = .error ("Unsupported operator: " ++ c.operator) := by
    unfold FilterProcessor.processOperator
    split
    all_goals first
      | rfl
      | (exfalso; simp_all [supportedOperators])
  refine ⟨hpo, ?_⟩
  unfold FilterProcessor.process FilterProcessor.processFilterCondition
  simp [hvalid, hs, hpo]

/-- C4 (witness): the amended theorem applied to the `or` operator, which the
`FilterOperator` type declares but the operator table does not handle. -/
theorem processUnsupportedOperatorSoftWitness :
    FilterProcessor.processOperator "age" "or" (.num 1) none
        = .error ("Unsupported operator: " ++ "or")
    ∧ FilterProcessor.process [] (.cond ⟨"age", "or", .num 1, none⟩)
        = ⟨.empty, ["Filter processing error: " ++ ("Unsupported operator: " ++ "or")], []⟩ :=
  processUnsupportedOperatorSoft [] ⟨"age", "or", .num 1, none⟩
    (by decide) (by decide) (by simp) (by simp) (by decide) rfl

/-- C5 (counterexample): a `notLike` condition with no case-sensitivity
request compiles to the case-sensitive `Op.notLike` predicate, not to a
case-insensitive pattern match as the claim requires for the default. -/
theorem notLikeDefaultCaseSensitive :
    FilterProcessor.processOperator "name" "notLike" (.str "a%") none
        = .ok (.fieldOp "name" .notLike (.str "a%"))
    ∧ SeqOp.isCaseInsensitive .notLike = false := ⟨rfl, rfl⟩

/-- C5 (amended): the `caseSensitive` request is ignored entirely —
`processOperator` is independent of it for every operator — and the
like-family mapping is fixed: `like`, `iLike`, `startsWith`, `endsWith` and
`contains` always compile to the case-insensitive `Op.iLike` (and `notILike`
to `Op.notILike`), while `notLike` always compiles to the case-sensitive
`Op.notLike`. -/
theorem likeFamilyFixedSensitivity (f : String) (v : JVal) (cs : Option Bool) :
    FilterProcessor.processOperator f "like" v cs = .ok (.fieldOp f .iLike v)
    ∧ FilterProcessor.processOperator f "iLike" v cs = .ok (.fieldOp f .iLike v)
    ∧ FilterProcessor.processOperator f "notLike" v cs = .ok (.fieldOp f .notLike v)
    ∧ FilterProcessor.processOperator f "notILike" v cs = .ok (.fieldOp f .notILike v)
    ∧ FilterProcessor.processOperator f "startsWith" v cs
        = .ok (.fieldOp f .iLike (.str (v.toJs ++ "%")))
    ∧ FilterProcessor.processOperator f "endsWith" v cs
        = .ok (.fieldOp f .iLike (.str ("%" ++ v.toJs)))
    ∧ FilterProcessor.processOperator f "contains" v cs
        = .ok (.fieldOp f .iLike (.str ("%" ++ v.toJs ++ "%")))
    ∧ SeqOp.isCaseInsensitive .iLike = true
    ∧ SeqOp.isCaseInsensitive .notILike = true
    ∧ SeqOp.isCaseInsensitive .notLike = false
    ∧ (∀ (op : String) (cs' : Option Bool),
        FilterProcessor.processOperator f op v cs
          = FilterProcessor.processOperator f op v cs') :=
  ⟨rfl, rfl, rfl, rfl, rfl, rfl, rfl, rfl, rfl, rfl, fun _ _ => rfl⟩

/-- C8: a `between` or `notBetween` condition whose value is not a
two-element array compiles to a range predicate whose bounds both equal the
supplied value, and the full compile reports no error (the condition is not
dropped). -/
theorem betweenNonPairDefaultsBothBounds (f : String) (v : JVal) (cs : Option Bool)
    (hf : f ≠ "") (hu : v ≠ .undef) (hn : v ≠ .null) (h2 : v.isTwoArr = false) :
    FilterProcessor.process [] (.cond ⟨f, "between", v, cs⟩)
        = ⟨.fieldOp f .between (.arr [v, v]), [], []⟩
    ∧ FilterProcessor.process [] (.cond ⟨f, "notBetween", v, cs⟩)
        = ⟨.fieldOp f .notBetween (.arr [v, v]), [], []⟩ := by
  have hvalid : ∀ op : String, op ≠ "" →
      FilterProcessor.validateCondition ⟨f, op, v, cs⟩ = true := by
    intro op hop
    unfold FilterProcessor.validateCondition
    rw [if_neg (by simp [hf, hop])]
    cases hv : v <;> simp_all
  constructor
  · unfold FilterProcessor.process FilterProcessor.processFilterCondition
    simp [hvalid "between" (by decide), assocGet, FilterProcessor.processOperator, h2]
  · unfold FilterProcessor.process FilterProcessor.processFilterCondition
    simp [hvalid "notBetween" (by decide), assocGet, FilterProcessor.processOperator, h2]

/-- C8 (witness): the theorem applied to the single scalar value `5` on field
`'age'`. -/
theorem betweenNonPairDefaultsBothBoundsWitness :
    FilterProcessor.process [] (.cond ⟨"age", "between", .num 5, none⟩)
        = ⟨.fieldOp "age" .between (.arr [.num 5, .num 5]), [], []⟩
    ∧ FilterProcessor.process [] (.cond ⟨"age", "notBetween", .num 5, none⟩)
        = ⟨.fieldOp "age" .notBetween (.arr [.num 5, .num 5]), [], []⟩ :=
  betweenNonPairDefaultsBothBounds "age" (.num 5) none
    (by decide) (by simp) (by simp) rfl

/-- C10: an `in` or `notIn` condition whose value is not an array compiles
without failing, to exactly the same set-membership predicate as a
one-element array value. -/
theorem inScalarWrappedAsSingleton (f : String) (v : JVal) (cs : Option Bool)
    (h : v.isArr = false) :
    FilterProcessor.processOperator f "in" v cs = .ok (.fieldOp f .inOp (.arr [v]))
    ∧ FilterProcessor.processOperator f "notIn" v cs = .ok (.fieldOp f .notInOp (.arr [v]))
    ∧ FilterProcessor.processOperator f "in" v cs
        = FilterProcessor.processOperator f "in" (.arr [v]) cs
    ∧ FilterProcessor.processOperator f "notIn" v cs
        = FilterProcessor.processOperator f "notIn" (.arr [v]) cs := by
  have harr : (JVal.arr [v]).isArr = true := rfl
  refine ⟨?_, ?_, ?_, ?_⟩ <;> simp [FilterProcessor.processOperator, h, harr]

/-- C10 (witness): the theorem applied to the scalar string value `'x'`. -/
theorem inScalarWrappedAsSingletonWitness :
    FilterProcessor.processOperator "id" "in" (.str "x") none
        = .ok (.fieldOp "id" .inOp (.arr [.str "x"]))
    ∧ FilterProcessor.processOperator "id" "notIn" (.str "x") none
        = .ok (.fieldOp "id" .notInOp (.arr [.str "x"]))
    ∧ FilterProcessor.processOperator "id" "in" (.str "x") none
        = FilterProcessor.processOperator "id" "in" (.arr [.str "x"]) none
    ∧ FilterProcessor.processOperator "id" "notIn" (.str "x") none
        = FilterProcessor.processOperator "id" "notIn" (.arr [.str "x"]) none :=
  inScalarWrappedAsSingleton "id" (.str "x") none rfl

/-- Bridge lemma: for a positive divisor, the rational ceiling of `t / p`
equals the integer division `(t + p - 1) / p`. -/
theorem ceilDivBridge (t p : Int) (hp : 1 ≤ p) :
    ⌈(t : ℚ) / (p : ℚ)⌉ = (t + p - 1) / p := by
  have hp0 : (0:ℤ) < p := hp
  have hpq : (0:ℚ) < (p:ℚ) := by exact_mod_cast hp0
  set q := (t + p - 1) / p with hq
  have hmod := Int.ediv_add_emod (t + p - 1) p
  have hr0 : 0 ≤ (t + p - 1) % p := Int.emod_nonneg _ (by omega)
  have hrp : (t + p - 1) % p < p := Int.emod_lt_of_pos _ hp0
  rw [Int.ceil_eq_iff]
  have hc : p * q = q * p := mul_comm p q
  have hexp : (q - 1) * p = q * p - p := by ring
  constructor
  · rw [lt_div_iff₀ hpq]
    exact_mod_cast (by linarith : ((q:Int) - 1) * p < t)
  · rw [div_le_iff₀ hpq]
    exact_mod_cast (by linarith : (t:Int) ≤ q * p)

/-- C6: for page-based options with integer `page ≥ 1` and integer
`pageSize` in `[1, maxPageSize]`, `PaginationBuilder.process` succeeds and
returns `offset = (page - 1) * pageSize`, `limit = pageSize`, echoing `page`
and `pageSize` unchanged. -/
theorem processPageBasedResolves (cfg : PaginationConfig) (p s : Int)
    (hp : 1 ≤ p) (hs1 : 1 ≤ s) (hs2 : s ≤ cfg.maxPageSize) :
    PaginationBuilder.process cfg ⟨some p, some s, none, none⟩
      = .ok ⟨(p - 1) * s, s, p, s⟩ := by
  have h1 : ¬ (p < 1) := by omega
  have h2 : ¬ (s < 1) := by omega
  have h3 : ¬ (s > cfg.maxPageSize) := by omega
  have h4 : p ≠ 0 := by omega
  have h5 : s ≠ 0 := by omega
  unfold PaginationBuilder.process PaginationBuilder.validate
  simp [h1, h2, h3, h4, h5, jsOrInt, PaginationBuilder.calculateOffset,
    min_eq_left hs2]

/-- C6 (witness): Scenario C's request `{page: 2, pageSize: 20}` resolves to
`offset = 20`, `limit = 20` under the default configuration. -/
theorem processPageBasedResolvesWitness :
    PaginationBuilder.process {} ⟨some 2, some 20, none, none⟩
      = .ok ⟨(2 - 1) * 20, 20, 2, 20⟩ :=
  processPageBasedResolves {} 2 20 (by decide) (by decide) (by decide)

/-- C7: for `total ≥ 0`, `page ≥ 1`, `pageSize ≥ 1`, `buildResult` produces
metadata with `totalPages = ceil(total / pageSize)` (equal to the integer
formula `(total + pageSize - 1) / pageSize`), `hasNext = page < totalPages`
and `hasPrev = page > 1`; in particular page 2 with pageSize 20 against
total 45 yields `totalPages = 3`, `hasNext = true`, `hasPrev = true`. -/
theorem buildResultMetadata (rows : List JVal) (total page pageSize : Int)
    (ht : 0 ≤ total) (hp : 1 ≤ page) (hs : 1 ≤ pageSize) :
    (PaginationBuilder.buildResult rows total page pageSize).pagination
        = some
          { page, pageSize, total,
            totalPages := (total + pageSize - 1) / pageSize,
            hasNext := decide (page < (total + pageSize - 1) / pageSize),
            hasPrev := decide (page > 1) }
    ∧ (PaginationBuilder.buildResult ([] : List JVal) 45 2 20).pagination
        = some { page := 2, pageSize := 20, total := 45, totalPages := 3,
                 hasNext := true, hasPrev := true } := by
  constructor
  · unfold PaginationBuilder.buildResult PaginationBuilder.calculateTotalPages
    rw [ceilDivBridge total pageSize hs]
  · unfold PaginationBuilder.buildResult PaginationBuilder.calculateTotalPages
    have h3 : ⌈(9 : ℚ) / 4⌉ = 3 := by
      rw [Int.ceil_eq_iff] <;> constructor <;> norm_num
    norm_num [h3]

/-- C7 (witness): the theorem applied to Scenario C's numbers. -/
theorem buildResultMetadataWitness :
    (PaginationBuilder.buildResult ([] : List JVal) 45 2 20).pagination
        = some
          { page := 2, pageSize := 20, total := 45,
            totalPages := ((45:Int) + 20 - 1) / 20,
            hasNext := decide ((2:Int) < ((45:Int) + 20 - 1) / 20),
            hasPrev := decide ((2:Int) > 1) }
    ∧ (PaginationBuilder.buildResult ([] : List JVal) 45 2 20).pagination
        = some { page := 2, pageSize := 20, total := 45, totalPages := 3,
                 hasNext := true, hasPrev := true } :=
  buildResultMetadata [] 45 2 20 (by decide) (by decide) (by decide)

/-- C3 (counterexample): calling `withPagination` with `{page: 2,
pageSize: 20}` and then again with `{offset: 5}` does not raise — the second
call returns successfully and the stored pagination is silently replaced by
the offset-based options. -/
theorem withPaginationSecondOffsetCallSucceeds :
    (AdvancedQueryBuilder.withPagination {} ⟨some 2, some 20, none, none⟩).bind
        (fun st1 => AdvancedQueryBuilder.withPagination st1 ⟨none, none, some 5, none⟩)
      = .ok { pagination := some ⟨none, none, some 5, none⟩ } := rfl

/-- C3 (amended): `withPagination` validates each call's options in isolation
against the Joi range schema, which contains no conflicting-mode rule; a
second call whose options carry only a non-negative `offset` therefore
succeeds and replaces the stored pagination wholesale, whatever mode was
stored before.  (The `Cannot use both page-based and offset-based pagination`
rule lives in `PaginationBuilder.validate` and fires only when one options
object carries both modes, as `PaginationBuilder.process` does at execution
time.) -/
theorem withPaginationOffsetOnlyReplaces (st : AdvancedQueryOptions) (k : Int)
    (hk : 0 ≤ k) :
    AdvancedQueryBuilder.withPagination st ⟨none, none, some k, none⟩
        = .ok { st with pagination := some ⟨none, none, some k, none⟩ }
    ∧ (PaginationBuilder.validate {} ⟨some 2, some 20, some 5, none⟩).isValid = false := by
  have h1 : ¬ (k < 0) := by omega
  constructor
  · unfold AdvancedQueryBuilder.withPagination ValidationUtils.validatePagination
    simp [h1]
  · decide

/-- C3 (witness): the amended theorem applied to the Scenario D state — a
builder that already stores `{page: 2, pageSize: 20}` — and `offset = 5`. -/
theorem withPaginationOffsetOnlyReplacesWitness :
    AdvancedQueryBuilder.withPagination
        { pagination := some ⟨some 2, some 20, none, none⟩ } ⟨none, none, some 5, none⟩
        = .ok { pagination := some ⟨none, none, some 5, none⟩ }
    ∧ (PaginationBuilder.validate {} ⟨some 2, some 20, some 5, none⟩).isValid = false :=
  withPaginationOffsetOnlyReplaces { pagination := some ⟨some 2, some 20, none, none⟩ } 5
    (by decide)

/-- C2 (code bug): a monitoring session started at `t = 1000` ms and ended at
`t = 3000` ms (both end-side clock samples at 3000, threshold 1000 ms) —
wall-clock elapsed time 2000 ms — yields `totalExecutionTime = 0`, not 2000,
and no threshold warning, because `endMonitoring` computes
`endTime - Date.now()` instead of `endTime - startTime` (the start time is
never stored).  The removal half of the claim does hold: the record leaves
the live map and a second `end` with the same handle returns `null`. -/
theorem endMonitoringMeasuresZeroElapsed :
    (let started := PerformanceMonitor.startMonitoring ⟨true, 1000, []⟩
        "findAll" "User" "req1" 1000
     let ended := PerformanceMonitor.endMonitoring started.2 started.1 3000 3000
     (ended.1.map (·.totalExecutionTime) = some 0)
       ∧ ended.1.map (·.totalExecutionTime) ≠ some 2000
       ∧ ended.2.1 = false
       ∧ PerformanceMonitor.endMonitoring ended.2.2 started.1 3000 3000
           = (none, false, ended.2.2)) := by
  refine ⟨rfl, by decide, rfl, rfl⟩

/-- C9: when the stored sorting list has a head condition and any tail, the
built query options are the same whatever the tail is — only `sorting[0]` is
compiled — and for a valid head (non-empty column, `ASC`/`DESC` order, no
nulls/case request) the build succeeds with exactly that one compiled
ordering instruction and no error; the remaining conditions contribute
nothing. -/
theorem sortingsOnlyFirstCompiled (cfg : PaginationConfig) (o : AdvancedQueryOptions)
    (ja : List JoinOptions) (col ord : String) (rest rest' : List SortCondition)
    (hcol : col ≠ "") (hord : ord = "ASC" ∨ ord = "DESC") :
    AdvancedQueryBuilder.buildQueryOptions cfg
        { o with sorting := some (⟨col, ord, "", none⟩ :: rest) } ja
      = AdvancedQueryBuilder.buildQueryOptions cfg
        { o with sorting := some (⟨col, ord, "", none⟩ :: rest') } ja
    ∧ AdvancedQueryBuilder.buildQueryOptions cfg
        { sorting := some (⟨col, ord, "", none⟩ :: rest) } ja
      = .ok ({ order := some [⟨.col col, "", ord⟩] }, ja) := by
  constructor
  · rfl
  · rcases hord with rfl | rfl <;>
      simp [AdvancedQueryBuilder.buildQueryOptions, SortBuilder.processFromOptions,
        SortProcessor.process, SortProcessor.processSortCondition,
        SortProcessor.validateCondition, SortProcessor.buildInstr, assocGet,
        jsOrStr, hcol]

/-- C9 (witness): the theorem applied to a two-condition sorting list
(`createdAt DESC` then `name ASC`): the second condition is ignored and may
be dropped without changing the built options. -/
theorem sortingsOnlyFirstCompiledWitness :
    AdvancedQueryBuilder.buildQueryOptions {}
        { sorting := some [⟨"createdAt", "DESC", "", none⟩, ⟨"name", "ASC", "", none⟩] } []
      = AdvancedQueryBuilder.buildQueryOptions {}
        { sorting := some [⟨"createdAt", "DESC", "", none⟩] } []
    ∧ AdvancedQueryBuilder.buildQueryOptions {}
        { sorting := some [⟨"createdAt", "DESC", "", none⟩, ⟨"name", "ASC", "", none⟩] } []
      = .ok ({ order := some [⟨.col "createdAt", "", "DESC"⟩] }, []) :=
  sortingsOnlyFirstCompiled {} {} [] "createdAt" "DESC"
    [⟨"name", "ASC", "", none⟩] [] (by decide) (Or.inr rfl)

/-- Helper: a successful `finishExecution` returns an envelope whose
`performance`, when present, has `cacheHit = false`, stores exactly that
envelope in the cache, and leaves the other state fields unchanged. -/
theorem finishExecutionSpec (cfg : BuilderConfig) (cacheKey : String) (now : Int)
    (mon : MonitorState) (monitorId : String) (base : QueryResult) (st : ExecState)
    (hbase : ∀ p, base.performance = some p → p.cacheHit = false) :
    ∃ r, AdvancedQueryBuilder.finishExecution cfg cacheKey now mon monitorId base st
        = (.ok r, { st with
            cache := CacheManager.set cfg.enableCaching cfg.cacheTTL st.cache now cacheKey r,
            monitorMetrics :=
              (PerformanceMonitor.endMonitoring mon monitorId now now).2.2.metrics })
      ∧ (∀ p, r.performance = some p → p.cacheHit = false) := by
  unfold AdvancedQueryBuilder.finishExecution
  cases hm : (PerformanceMonitor.endMonitoring mon monitorId now now).1 with
  | some m =>
      refine ⟨{ base with performance := some ⟨m.totalExecutionTime, m.queryCount, false⟩ },
        by simp [hm], ?_⟩
      intro p hp
      have hx := Option.some.inj hp
      subst hx
      rfl
  | none => exact ⟨base, by simp [hm], hbase⟩

/-- Helper: when the cache-miss path returns a success, the resulting state's
cache is the old cache with the returned envelope stored under the cache key,
and the envelope's `performance`, when present, has `cacheHit = false`. -/
theorem executeMissOkSpec (env : ExecEnv) (cfg : BuilderConfig)
    (opts : AdvancedQueryOptions) (now : Int) (st : ExecState) (monitorId : String)
    (mon : MonitorState) (cacheKey : String) (r : QueryResult) (st' : ExecState)
    (h : AdvancedQueryBuilder.executeMiss env cfg opts now st monitorId mon cacheKey
          = (.ok r, st')) :
    st'.cache = CacheManager.set cfg.enableCaching cfg.cacheTTL st.cache now cacheKey r
    ∧ (∀ p, r.performance = some p → p.cacheHit = false) := by
  simp only [AdvancedQueryBuilder.executeMiss] at h
  cases hb : AdvancedQueryBuilder.buildQueryOptions cfg.pagination opts st.joinsAccum with
  | error e => rw [hb] at h; simp at h
  | ok pj =>
      obtain ⟨plan, ja⟩ := pj
      rw [hb] at h
      simp only [] at h
      cases hpg : opts.pagination with
      | none =>
          rw [hpg] at h
          simp only [] at h
          obtain ⟨r0, heq, hr0⟩ := finishExecutionSpec cfg cacheKey now
            (PerformanceMonitor.recordQueryExecution mon monitorId (now - now)) monitorId
            { data := env.findAllRows plan, performance := some ⟨now - now, 1, false⟩ }
            { st with joinsAccum := ja, findAllCalls := st.findAllCalls + 1 }
            (by intro p hp; have hx := Option.some.inj hp; subst hx; rfl)
          rw [heq] at h
          have h1 := congrArg Prod.fst h
          have h2 := congrArg Prod.snd h
          simp only [Prod.fst] at h1
          simp only [Prod.snd] at h2
          have hr : r0 = r := by
            have := h1
            simp at this
            exact this
          subst hr
          subst h2
          exact ⟨rfl, hr0⟩
      | some po =>
          rw [hpg] at h
          simp only [] at h
          cases hpr : PaginationBuilder.process cfg.pagination po with
          | error e => rw [hpr] at h; simp at h
          | ok pg =>
              rw [hpr] at h
              simp only [] at h
              obtain ⟨r0, heq, hr0⟩ := finishExecutionSpec cfg cacheKey now
                (PerformanceMonitor.recordQueryExecution mon monitorId (now - now)) monitorId
                (PaginationBuilder.buildResult (env.findAllRows plan)
                  (env.countValue (AdvancedQueryBuilder.countOptions plan)) pg.page pg.pageSize)
                { st with joinsAccum := ja, findAllCalls := st.findAllCalls + 1,
                          countCalls := st.countCalls + 1 }
                (by intro p hp; simp [PaginationBuilder.buildResult] at hp)
              rw [heq] at h
              have h1 := congrArg Prod.fst h
              have h2 := congrArg Prod.snd h
              have hr : r0 = r := by simp at h1; exact h1
              subst hr
              subst h2
              exact ⟨rfl, hr0⟩

/-- C1 (amended): for a cache-enabled orchestrator starting from an empty
cache, if the first `execute` of a specification succeeds with envelope `r`,
then a second `execute` of the same specification within the TTL window
returns exactly the cached envelope `r` — whose `performance.cacheHit`
indicator, when the payload is present, is `false` (the hit is recorded only
on the performance monitor) — and performs zero additional `findAll` calls. -/
theorem secondExecuteServesCache (env : ExecEnv) (cfg : BuilderConfig)
    (opts : AdvancedQueryOptions) (t1 t2 : Int) (st0 : ExecState) (r : QueryResult)
    (st1 : ExecState)
    (hcache : cfg.enableCaching = true)
    (hempty : st0.cache = [])
    (hrun : AdvancedQueryBuilder.execute env cfg opts t1 st0 = (.ok r, st1))
    (hfresh : ¬ (t2 > t1 + cfg.cacheTTL * 1000)) :
    (AdvancedQueryBuilder.execute env cfg opts t2 st1).1 = .ok r
    ∧ (AdvancedQueryBuilder.execute env cfg opts t2 st1).2.findAllCalls = st1.findAllCalls
    ∧ (∀ p, r.performance = some p → p.cacheHit = false) := by
  simp only [AdvancedQueryBuilder.execute, hcache, if_true] at hrun
  rw [show CacheManager.get true st0.cache t1
        (AdvancedQueryBuilder.generateCacheKey env.modelName opts "") = (none, st0.cache) by
      rw [hempty]; rfl] at hrun
  simp only [] at hrun
  obtain ⟨hc, hperf⟩ := executeMissOkSpec env cfg opts t1 { st0 with cache := st0.cache }
    _ _ _ r st1 hrun
  rw [hcache, hempty] at hc
  have hset : CacheManager.set true cfg.cacheTTL ([] : MemoryCache) t1
      (AdvancedQueryBuilder.generateCacheKey env.modelName opts "") r
      = [(CacheManager.keyNamespace
            ++ AdvancedQueryBuilder.generateCacheKey env.modelName opts "",
          ⟨r, t1 + cfg.cacheTTL * 1000⟩)] := by
    simp [CacheManager.set, MemoryCacheProvider.set, assocSet]
  rw [hset] at hc
  have hget : CacheManager.get true st1.cache t2
      (AdvancedQueryBuilder.generateCacheKey env.modelName opts "")
      = (some r, st1.cache) := by
    rw [hc]
    simp [CacheManager.get, MemoryCacheProvider.get, assocGet, hfresh]
  refine ⟨?_, ?_, hperf⟩ <;>
    simp [AdvancedQueryBuilder.execute, hcache, hget]

/-- A concrete execution environment for the caching scenario: model `User`,
one row, zero count. -/
def scenarioEnv : ExecEnv :=
  { modelName := "User", requestId := "req1",
    findAllRows := fun _ => [.num 1], countValue := fun _ => 0 }

/-- A cache-enabled configuration with the source's defaults (TTL 300 s,
monitoring on, threshold 1000 ms). -/
def scenarioCfg : BuilderConfig := { enableCaching := true }

/-- C1 (counterexample): executing the empty specification twice in a row
(first at `t = 0`, again at `t = 1`) on a cache-enabled orchestrator returns,
on the second call, the cached envelope whose `performance.cacheHit` is
`false` — not `true` as claimed (the source hardcodes `cacheHit: false` in
every envelope it builds and returns the cached envelope verbatim).  The
zero-additional-calls half of the claim does hold: `findAll` is not invoked
again. -/
theorem secondExecuteReturnsCacheHitFalse :
    (AdvancedQueryBuilder.execute scenarioEnv scenarioCfg {} 1
        (AdvancedQueryBuilder.execute scenarioEnv scenarioCfg {} 0 {}).2).1
      = .ok { data := [.num 1], performance := some ⟨0, 1, false⟩ }
    ∧ (AdvancedQueryBuilder.execute scenarioEnv scenarioCfg {} 0 {}).2.findAllCalls = 1
    ∧ (AdvancedQueryBuilder.execute scenarioEnv scenarioCfg {} 1
        (AdvancedQueryBuilder.execute scenarioEnv scenarioCfg {} 0 {}).2).2.findAllCalls = 1 :=
  ⟨rfl, rfl, rfl⟩

/-- C1 (witness): the amended theorem applied to the concrete scenario run. -/
theorem secondExecuteServesCacheWitness :
    (AdvancedQueryBuilder.execute scenarioEnv scenarioCfg {} 1
        (AdvancedQueryBuilder.execute scenarioEnv scenarioCfg {} 0 {}).2).1
      = .ok { data := [.num 1], performance := some ⟨0, 1, false⟩ }
    ∧ (AdvancedQueryBuilder.execute scenarioEnv scenarioCfg {} 1
        (AdvancedQueryBuilder.execute scenarioEnv scenarioCfg {} 0 {}).2).2.findAllCalls
      = (AdvancedQueryBuilder.execute scenarioEnv scenarioCfg {} 0 {}).2.findAllCalls
    ∧ (∀ p, ({ data := [.num 1], performance := some ⟨0, 1, false⟩ } : QueryResult).performance
          = some p → p.cacheHit = false) :=
  secondExecuteServesCache scenarioEnv scenarioCfg {} 0 1 {}
    { data := [.num 1], performance := some ⟨0, 1, false⟩ }
    (AdvancedQueryBuilder.execute scenarioEnv scenarioCfg {} 0 {}).2
    rfl rfl rfl (by decide)

end SQB

